import Mathlib

/-!
Verification development for the rapidus execution core:
the scope analyzer (src/analysis.rs) and the Array/Symbol builtins
(src/builtins/array.rs, src/builtins/symbol.rs), embedded shallowly.

Machine integers (usize offsets) are modelled as Nat; hash maps are
modelled as association lists with replace-on-insert semantics, which
preserves exactly the contents-and-lookup behaviour the analyzer relies
on.  Source positions (Node.pos) are not modelled: the analyzer threads
them through unchanged and no claim mentions them.
-/

set_option autoImplicit false

namespace Rapidus

/-- Identifier payload: either still a source name or a resolved storage
offset (node.rs of the richer AST generation, as used by analysis.rs). -/
inductive IdentifierInfo where
  | Name (s : String)
  | Offset (n : Nat)
deriving DecidableEq

/-- Declaration kind of a VarDecl.  analysis.rs matches
`NodeBase::VarDecl(ref name, _, _)` and never inspects the kind. -/
inductive VarKind where
  | Var
  | Let
  | Const
deriving DecidableEq

/-- A formal parameter: name plus the resolved offset written back by the
analyzer (`bound`). -/
structure FormalParameter where
  name : String
  bound : Option Nat
deriving DecidableEq

/-- The AST node kinds that analysis.rs distinguishes.  All node kinds the
visitor passes through untouched (its final catch-all arm) are collected
in `Other`; `Assign`, `Number` are kept because the rewriting step builds
them / programs contain them, and they also fall to the catch-all arm. -/
inductive Node where
  | StatementList (stmts : List Node)
  | Block (stmts : List Node)
  | If (cond then_ else_ : Node)
  | While (cond body : Node)
  | For (init cond step body : Node)
  | Break
  | Try (tryb catchb param finallyb : Node)
  | FunctionDecl (name : String) (params : List FormalParameter)
      (body : Node) (bound_variables : Nat)
  | VarDecl (name : String) (init : Option Node) (kind : VarKind)
  | Assign (dst src : Node)
  | Identifier (info : IdentifierInfo)
  | Number (n : Int)
  | Other

/-- Source `IdentifierInfo::get_name`.  The analyzer only calls it on nodes coming
from the parser, which produces `Name` payloads; the `Offset` case is
unreachable there and modelled as the empty string. -/
def IdentifierInfo.get_name : IdentifierInfo → String
  | .Name s => s
  | .Offset _ => ""

/-- Source `VarMap = FxHashMap<String, Option<usize>>`, modelled as an association
list whose keys are unique (insert replaces). -/
abbrev VarMap := List (String × Option Nat)

def VarMap.empty : VarMap := []

/-- Source `HashMap::get`. -/
def VarMap.get : VarMap → String → Option (Option Nat)
  | [], _ => none
  | (k, v) :: rest, name => if k = name then some v else VarMap.get rest name

/-- Source `HashMap::insert`: replaces the binding of an existing key. -/
def VarMap.insert : VarMap → String → Option Nat → VarMap
  | [], name, v => [(name, v)]
  | (k, w) :: rest, name, v =>
      if k = name then (k, v) :: rest else (k, w) :: VarMap.insert rest name v

/-- Modelled from the spec: the `id` crate (IdGen) is not under src/.
Spec: the Id Generator "issues unique, nesting-scoped storage-slot ids,
with save/restore so sibling functions reuse the same offset space" and
the offsets of each function are local to it, so `save` pushes the current
counter and restarts it at 0, and `restore` pops it back. -/
structure IdGen where
  id : Nat
  saved_id : List Nat
deriving DecidableEq

def IdGen.new : IdGen := ⟨0, []⟩

def IdGen.get_cur_id (g : IdGen) : Nat := g.id

def IdGen.gen_id (g : IdGen) : Nat × IdGen :=
  (g.id, ⟨g.id + 1, g.saved_id⟩)

def IdGen.save (g : IdGen) : IdGen := ⟨0, g.id :: g.saved_id⟩

/-- The source pops with `.unwrap()`; the analyzer only restores after a
matching save, so the empty case is unreachable (modelled as a no-op). -/
def IdGen.restore (g : IdGen) : IdGen :=
  match g.saved_id with
  | [] => g
  | s :: rest => ⟨s, rest⟩

/-- Source `Level`: a scope level of the analyzer. -/
inductive Level where
  | Function (params : VarMap) (varmap : VarMap)
  | Block (varmap : VarMap)
deriving DecidableEq

def Level.get_varmap : Level → VarMap
  | .Function _ varmap => varmap
  | .Block varmap => varmap

/-- Source `Level::as_function_level`; the analyzer only calls it on the level it
pushed for the function, so the Block case is unreachable (modelled as a
pair of empty maps). -/
def Level.as_function_level : Level → VarMap × VarMap
  | .Function params varmap => (params, varmap)
  | .Block _ => (VarMap.empty, VarMap.empty)

/-- Analyzer state.  The source keeps the levels in a `Vec` with the
innermost level last; here the innermost level is the HEAD of the list,
so push is cons, pop is tail, and the innermost-to-outermost iteration of
`use_variable` (`.iter().rev()`) is plain list order. -/
structure Analyzer where
  level : List Level
  idgen : IdGen
deriving DecidableEq

def Analyzer.new : Analyzer :=
  ⟨[Level.Function VarMap.empty VarMap.empty], IdGen.new⟩

def Analyzer.push_new_block_level (a : Analyzer) : Analyzer :=
  { a with level := Level.Block VarMap.empty :: a.level }

def Analyzer.push_new_function_level (a : Analyzer) (params : VarMap) : Analyzer :=
  { a with level := Level.Function params VarMap.empty :: a.level }

/-- Source `pop_level` (the source unwraps; the visitor keeps the stack nonempty,
so the empty case is unreachable and modelled with a dummy level). -/
def Analyzer.pop_level (a : Analyzer) : Level × Analyzer :=
  match a.level with
  | [] => (Level.Block VarMap.empty, a)
  | l :: rest => (l, { a with level := rest })

def Analyzer.get_current_varmap (a : Analyzer) : VarMap :=
  match a.level with
  | [] => VarMap.empty
  | l :: _ => l.get_varmap

/-- Replace the varmap of the current (innermost) level, modelling mutation
through `get_current_varmap_mut`. -/
def Analyzer.set_current_varmap (a : Analyzer) (m : VarMap) : Analyzer :=
  match a.level with
  | [] => a
  | Level.Function params _ :: rest =>
      { a with level := Level.Function params m :: rest }
  | Level.Block _ :: rest =>
      { a with level := Level.Block m :: rest }

/-- Inner loop of `collect_variable_declarations`: register every
immediate child VarDecl name as unresolved in the given varmap. -/
def collectGo : VarMap → List Node → VarMap
  | m, [] => m
  | m, Node.VarDecl name _ _ :: rest => collectGo (m.insert name none) rest
  | m, _ :: rest => collectGo m rest

/-- Source `Analyzer::collect_variable_declarations`: only acts when the node is
a StatementList; registers its immediate VarDecl children in the varmap
of the CURRENT level. -/
def Analyzer.collect_variable_declarations (a : Analyzer) (node : Node) : Analyzer :=
  match node with
  | .StatementList stmts => a.set_current_varmap (collectGo a.get_current_varmap stmts)
  | _ => a

/-- The `bound_variables` map (`FxHashMap<String, usize>`) built from a
varmap by keeping the resolved entries, modelled as an association list
(keys stay unique because those of the varmap are). -/
def resolvedBindings (m : VarMap) : List (String × Nat) :=
  m.filterMap (fun p => match p.2 with
    | some off => some (p.1, off)
    | none => none)

def boundLookup : List (String × Nat) → String → Option Nat
  | [], _ => none
  | (k, v) :: rest, name => if k = name then some v else boundLookup rest name

/-- Per-statement step of `replace_variable_declarations`: a VarDecl with
an initializer whose name acquired an offset becomes an assignment to
that offset. -/
def replaceOne (bound : List (String × Nat)) : Node → Node
  | .VarDecl name init kind =>
      match boundLookup bound name, init with
      | some off, some i => .Assign (.Identifier (.Offset off)) i
      | _, _ => .VarDecl name init kind
  | n => n

/-- Source `Analyzer::replace_variable_declarations`: only acts when the node is
a StatementList; rewrites its immediate VarDecl children. -/
def replace_variable_declarations (bound : List (String × Nat)) : Node → Node
  | .StatementList stmts => .StatementList (stmts.map (replaceOne bound))
  | n => n

/-- Search loop of `use_variable` over the level stack, innermost first.
At a Function level the parameters are consulted before the locals and
the walk STOPS there (`return None`); a Block level falls through to the
outer levels when it lacks the name.  A hit on an unresolved entry
lazily assigns a fresh id. -/
def useVarGo (idg : IdGen) (name : String) :
    List Level → Option Nat × IdGen × List Level
  | [] => (none, idg, [])
  | Level.Function params varmap :: rest =>
      match params.get name with
      | some (some v) => (some v, idg, Level.Function params varmap :: rest)
      | some none =>
          let (i, idg') := idg.gen_id
          (some i, idg', Level.Function (params.insert name (some i)) varmap :: rest)
      | none =>
          match varmap.get name with
          | some (some v) => (some v, idg, Level.Function params varmap :: rest)
          | some none =>
              let (i, idg') := idg.gen_id
              (some i, idg', Level.Function params (varmap.insert name (some i)) :: rest)
          | none => (none, idg, Level.Function params varmap :: rest)
  | Level.Block varmap :: rest =>
      match varmap.get name with
      | some (some v) => (some v, idg, Level.Block varmap :: rest)
      | some none =>
          let (i, idg') := idg.gen_id
          (some i, idg', Level.Block (varmap.insert name (some i)) :: rest)
      | none =>
          let (r, idg', rest') := useVarGo idg name rest
          (r, idg', Level.Block varmap :: rest')

/-- Source `Analyzer::use_variable`. -/
def Analyzer.use_variable (a : Analyzer) (name : String) : Option Nat × Analyzer :=
  let (r, idg', levels') := useVarGo a.idgen name a.level
  (r, ⟨levels', idg'⟩)

/-- Build the parameter map of a function: every formal parameter name is
registered unresolved (FunctionDecl arm of `visit`). -/
def paramsVarmap (ps : List FormalParameter) : VarMap :=
  ps.foldl (fun m p => m.insert p.name none) VarMap.empty

/-- Write resolved offsets back into the formal parameters after the body
has been visited (`*bound = Some(*offset)`; an unresolved parameter keeps
its previous `bound`). -/
def bindParams (pmap : VarMap) : List FormalParameter → List FormalParameter
  | [] => []
  | p :: rest =>
      (match pmap.get p.name with
        | some (some off) => { p with bound := some off }
        | _ => p) :: bindParams pmap rest

/-- The `collect_variable_declarations` pass over the children of a
StatementList or Block before visiting them. -/
def collectList (a : Analyzer) (stmts : List Node) : Analyzer :=
  stmts.foldl Analyzer.collect_variable_declarations a

mutual

/-- Source `Analyzer::visit`: the scope-resolution rewrite, threading the
analyzer state explicitly.  Every arm mirrors the corresponding match arm
of the source; node kinds whose arms are commented out in the source fall
to the catch-all and pass through unchanged. -/
def visit (a : Analyzer) : Node → Analyzer × Node
  | .StatementList stmts =>
      let a1 := collectList a stmts
      let (a2, new_stmts) := visitList a1 stmts
      let bound := resolvedBindings a2.get_current_varmap
      (a2, .StatementList (new_stmts.map (replace_variable_declarations bound)))
  | .Block stmts =>
      let a1 := a.push_new_block_level
      let a2 := collectList a1 stmts
      let (a3, new_stmts) := visitList a2 stmts
      let (lvl, a4) := a3.pop_level
      let bound := resolvedBindings lvl.get_varmap
      (a4, .Block (new_stmts.map (replace_variable_declarations bound)))
  | .If cond then_ else_ =>
      let (a1, c) := visit a cond
      let (a2, t) := visit a1 then_
      let (a3, e) := visit a2 else_
      (a3, .If c t e)
  | .While cond body =>
      let (a1, c) := visit a cond
      let (a2, b) := visit a1 body
      (a2, .While c b)
  | .For init cond step body =>
      let (a1, i) := visit a init
      let (a2, c) := visit a1 cond
      let (a3, s) := visit a2 step
      let (a4, b) := visit a3 body
      (a4, .For i c s b)
  | .Break => (a, .Break)
  | .Try tryb catchb param finallyb =>
      let (a1, t) := visit a tryb
      let (a2, c) := visit a1 catchb
      let (a3, p) := visit a2 param
      let (a4, f) := visit a3 finallyb
      (a4, .Try t c p f)
  | .FunctionDecl name params body _ =>
      let a1 := { a with idgen := a.idgen.save }
      let a2 := a1.push_new_function_level (paramsVarmap params)
      let (a3, body') := visit a2 body
      let (lvl, a4) := a3.pop_level
      let (params_varmap, _) := lvl.as_function_level
      let params' := bindParams params_varmap params
      let a5 := { a4 with idgen := a4.idgen.restore }
      (a5, .FunctionDecl name params' body' a5.idgen.get_cur_id)
  | .VarDecl name (some i) kind =>
      let (a1, i') := visit a i
      (a1, .VarDecl name (some i') kind)
  | .VarDecl name none kind => (a, .VarDecl name none kind)
  | .Identifier info =>
      let name := info.get_name
      let (r, a1) := a.use_variable name
      (a1, .Identifier (match r with
        | some off => .Offset off
        | none => .Name name))
  | .Assign dst src => (a, .Assign dst src)
  | .Number n => (a, .Number n)
  | .Other => (a, .Other)

/-- Visit the statements of a list in order, threading the state (the
`for stmt in stmts` loops of the StatementList and Block arms). -/
def visitList (a : Analyzer) : List Node → Analyzer × List Node
  | [] => (a, [])
  | s :: rest =>
      let (a1, s') := visit a s
      let (a2, rest') := visitList a1 rest
      (a2, s' :: rest')

end

/-- Source `Analyzer::analyze`: requires a StatementList root (anything else is
an internal-contract violation, a panic in the source, modelled as
`none`); visits the top-level statements with no collect/rewrite step of
its own. -/
def analyze (a : Analyzer) (node : Node) : Option (Analyzer × Node) :=
  match node with
  | .StatementList stmts =>
      let (a1, stmts') := visitList a stmts
      some (a1, .StatementList stmts')
  | _ => none

/-!
## Runtime value model and builtins

The richer VM generation (vm/jsvalue, vm/frame, vm/vm, the factory and
the global symbol registry) is not under src/; only its builtins
(src/builtins/array.rs, src/builtins/symbol.rs) are.  The state and the
helper operations below are therefore modelled from the spec (sections
3, 4.2, 4.3), while `array_constructor`, `array_prototype_push`,
`array_prototype_map`, `symbol_for` and `symbol_key_for` are translated
from the source.  Numbers relevant to the claims are integers, so f64 is
modelled as Int (no rounding is involved anywhere the claims reach).
-/

/-- Modelled from the spec: the tagged Value union (spec section 3).
Object, Array, Symbol and Function values are references into the shared
heap; in the source an array is an Object whose kind discriminator is
array, here it is a separate reference variant for directness. -/
inductive Value where
  | Number (n : Int)
  | Str (s : String)
  | Boolean (b : Bool)
  | Undefined
  | Null
  | Empty
  | Object (ref : Nat)
  | Array (ref : Nat)
  | Symbol (ref : Nat)
  | Function (ref : Nat)
deriving DecidableEq

def Value.is_array_object (v : Value) : Bool :=
  match v with
  | .Array _ => true
  | _ => false

def Value.is_symbol (v : Value) : Bool :=
  match v with
  | .Symbol _ => true
  | _ => false

/-- Modelled from the spec: Value::to_string follows standard
dynamic-language coercions; the claims only exercise the String case. -/
def Value.to_string (v : Value) : String :=
  match v with
  | .Number n => toString n
  | .Str s => s
  | .Boolean b => if b then "true" else "false"
  | .Undefined => "undefined"
  | .Null => "null"
  | .Empty => ""
  | .Object _ => "[object Object]"
  | .Array _ => ""
  | .Symbol _ => "symbol"
  | .Function _ => "function"

/-- Modelled from the spec: Value::debug_string, used only to build error
message text. -/
def Value.debug_string (v : Value) : String := v.to_string

/-- Modelled from the spec: a data property (value plus
writable/enumerable/configurable flags); accessor properties lie outside
the fragment the claims reach. -/
structure Property where
  val : Value
  writable : Bool
  enumerable : Bool
  configurable : Bool
deriving DecidableEq

/-- Source `Property::new_data_simple`. -/
def Property.new_data_simple (v : Value) : Property :=
  ⟨v, true, true, true⟩

/-- Modelled from the spec: ArrayObjectInfo, the contiguous element
vector of an array object; its synthesized length is the vector length. -/
structure ArrayObjectInfo where
  elems : List Property
deriving DecidableEq

def ArrayObjectInfo.get_length (info : ArrayObjectInfo) : Nat :=
  info.elems.length

/-- Modelled from the spec: the VM state the claims observe — the array
heap, the symbol heap, the global symbol registry (interning key to
symbol reference, empty at startup, append-only) and the shared operand
stack (top of stack = head). -/
structure VMState where
  arrays : List ArrayObjectInfo
  symbols : List (Option String)
  registry : List (String × Nat)
  stack : List Value
deriving DecidableEq

/-- Modelled from the spec: startup state — empty heap, empty registry,
empty operand stack. -/
def VMState.startup : VMState := ⟨[], [], [], []⟩

/-- Modelled from the spec: `RuntimeError` — the structured exception
kinds the two builtin files construct: `Frame::error_unknown` builds the
Unknown kind, `Frame::error_type(msg)` the Type kind. -/
inductive RuntimeError where
  | Unknown
  | Type (msg : String)
deriving DecidableEq

/-- Outcome of running a builtin: `ok` a normal return (`Ok(())` with the
mutated state), `err` a raised structured exception (`Err(...)` with the
state at raise time), `abort` a Rust panic, i.e. abnormal termination of
the VM, which returns no state at all. -/
inductive BuiltinResult where
  | ok (st : VMState)
  | err (e : RuntimeError) (st : VMState)
  | abort
deriving DecidableEq

/-- Modelled from the spec: `Factory::array` — the allocator hands out a
fresh heap slot, so allocation appends at the end of the array heap and
the reference to the new object is its index. -/
def factoryArray (st : VMState) (props : List Property) : Value × VMState :=
  (.Array st.arrays.length, { st with arrays := st.arrays ++ [⟨props⟩] })

/-- Modelled from the spec: `Factory::symbol` — allocates a fresh symbol
heap slot holding the description. -/
def factorySymbol (st : VMState) (desc : Option String) : Value × VMState :=
  (.Symbol st.symbols.length, { st with symbols := st.symbols ++ [desc] })

/-- The table of native functions of the VM, fixed at startup.  Modelled
from the spec: a native callable observes the fixed calling convention
(argument list, `this` binding) and on normal completion leaves exactly
one value, its result, for the caller; the natives the claims exercise
are pure, so an entry is a function from arguments and `this` to the
result value. -/
abbrev NativeTable := List (List Value → Value → Value)

/-- Modelled from the spec: `VM::call_function` — dispatches a callable
value through the native-function table under the fixed calling
convention and pushes its single result onto the operand stack; invoking
a non-callable raises a type error through the current frame. -/
def call_function (tbl : NativeTable) (st : VMState) (callee : Value)
    (args : List Value) (this : Value) : Except RuntimeError VMState :=
  match callee with
  | .Function id =>
      match List.get? tbl id with
      | some f => .ok { st with stack := f args this :: st.stack }
      | none => .error (.Type "not a function")
  | v => .error (.Type (v.debug_string ++ " is not a function"))

/-- Modelled from the spec: `VM::get_property` for the lookups map
performs — an integer index into an array reads the element (a data
property; lookup misses yield undefined, they are not errors). -/
def get_property (st : VMState) (parent idx : Value) : Value :=
  match parent, idx with
  | .Array ref, .Number i =>
      (match st.arrays.get? ref with
        | some info =>
            if i < 0 then .Undefined
            else match info.elems.get? i.toNat with
              | some p => p.val
              | none => .Undefined
        | none => .Undefined)
  | _, _ => .Undefined

/-- Source `array_prototype_push` (src/builtins/array.rs): reject a non-array
receiver through the current frame BEFORE touching anything; otherwise
append every argument as a simple data property and leave the new length
on the operand stack.  The receiver reference is valid in any state the
VM reaches; a dangling reference would make `as_array_mut` undefined
behaviour, modelled as `abort`. -/
def array_prototype_push (st : VMState) (args : List Value) (this : Value) :
    BuiltinResult :=
  match this with
  | .Array ref =>
      (match st.arrays.get? ref with
        | some info =>
            let newElems := info.elems ++ args.map Property.new_data_simple
            let st1 := { st with arrays := st.arrays.set ref ⟨newElems⟩ }
            .ok { st1 with
                  stack := .Number (Int.ofNat newElems.length) :: st1.stack }
        | none => .abort)
  | _ => .err .Unknown st

/-- The per-index loop of `array_prototype_map`: read the current element
through `get_property`, call the callback on
(element, index, the array itself) with undefined `this`, pop its result
from the operand stack and collect it as a simple data property.  The
iteration bound was taken from `get_length()` once, before the loop. -/
def mapLoop (tbl : NativeTable) (callback this : Value) (ref : Nat) :
    Nat → Nat → List Property → VMState → BuiltinResult
  | 0, _, acc, st =>
      let (newAry, st1) := factoryArray st acc
      .ok { st1 with stack := newAry :: st1.stack }
  | n + 1, i, acc, st =>
      let v := get_property st this (.Number (Int.ofNat i))
      match call_function tbl st callback [v, .Number (Int.ofNat i), this] .Undefined with
      | .error e => .err e st
      | .ok st1 =>
          match st1.stack with
          | [] => .abort
          | r :: rest =>
              mapLoop tbl callback this ref n (i + 1)
                (acc ++ [Property.new_data_simple r]) { st1 with stack := rest }

/-- Source `array_prototype_map` (src/builtins/array.rs): reject a non-array
receiver through the current frame before touching anything; then take
the callback from `args[0]` — on an empty argument list this is an
out-of-bounds slice index, a Rust panic (`abort`) — and map every index
of the receiver through the callback into a freshly allocated array,
which is left on the operand stack. -/
def array_prototype_map (tbl : NativeTable) (st : VMState) (args : List Value)
    (this : Value) : BuiltinResult :=
  match this with
  | .Array ref =>
      (match st.arrays.get? ref with
        | some info =>
            (match args.get? 0 with
              | none => .abort
              | some callback =>
                  mapLoop tbl callback this ref info.get_length 0 [] st)
        | none => .abort)
  | _ => .err .Unknown st

/-- First registry entry holding the given symbol reference. -/
def findKeyByRef : List (String × Nat) → Nat → Option String
  | [], _ => none
  | (k, r) :: rest, ref => if r = ref then some k else findKeyByRef rest ref

/-- Modelled from the spec: `GlobalSymbolRegistry::for_` — the interning
lookup: a key already registered yields the symbol reference it was
interned to; an unregistered key allocates a fresh symbol through the
factory and appends the pair to the registry (append-only). -/
def registryFor (st : VMState) (key : String) : Value × VMState :=
  match boundLookup st.registry key with
  | some ref => (.Symbol ref, st)
  | none =>
      let (sym, st1) := factorySymbol st (some key)
      match sym with
      | .Symbol ref => (sym, { st1 with registry := st1.registry ++ [(key, ref)] })
      | _ => (sym, st1)

/-- Modelled from the spec: `GlobalSymbolRegistry::key_for` — the key a
symbol was interned under, as a string value, or undefined for a symbol
the registry does not hold. -/
def registryKeyFor (st : VMState) (sym : Value) : Value :=
  match sym with
  | .Symbol ref =>
      (match findKeyByRef st.registry ref with
        | some k => .Str k
        | none => .Undefined)
  | _ => .Undefined

/-- Source `symbol_for` (src/builtins/symbol.rs): intern the first argument
(defaulting to undefined) coerced to a string, and leave the symbol on
the operand stack. -/
def symbol_for (st : VMState) (args : List Value) : BuiltinResult :=
  let key := ((args.get? 0).getD .Undefined).to_string
  let (sym, st1) := registryFor st key
  .ok { st1 with stack := sym :: st1.stack }

/-- Source `symbol_key_for` (src/builtins/symbol.rs): the first argument
(defaulting to undefined) must be a symbol, otherwise a type error is
raised through the current frame; the registry key (or undefined) is
left on the operand stack. -/
def symbol_key_for (st : VMState) (args : List Value) : BuiltinResult :=
  let sym := (args.get? 0).getD .Undefined
  if sym.is_symbol then
    .ok { st with stack := registryKeyFor st sym :: st.stack }
  else
    .err (.Type (sym.debug_string ++ " is not symbol")) st

/-!
## Concrete fixtures and auxiliary predicates used by the theorems
-/

/-- A simple data property holding an integer number. -/
def numProp (n : Int) : Property := Property.new_data_simple (.Number n)

/-- A VM state whose heap holds one array, `[1, 2, 3]`, at reference 0. -/
def st123 : VMState := ⟨[⟨[numProp 1, numProp 2, numProp 3]⟩], [], [], []⟩

/-- A native callback doubling its first argument (`x => x * 2`). -/
def doubler : List Value → Value → Value := fun args _ =>
  match args.get? 0 with
  | some (.Number n) => .Number (2 * n)
  | _ => .Undefined

/-- A native-function table whose id 0 is the doubling callback. -/
def dblTable : NativeTable := [doubler]

/-- Whether a builtin outcome is a raised type error (as opposed to an
unknown-kind error, a normal return, or an abort). -/
def BuiltinResult.raised_type_error (r : BuiltinResult) : Bool :=
  match r with
  | .err (.Type _) _ => true
  | _ => false

/-- Well-formedness of the global symbol registry: registered symbol
references are pairwise distinct and point into the symbol heap.  Every
state the VM reaches satisfies this: the registry only ever grows by
interning a freshly allocated symbol. -/
def WFRegistry (st : VMState) : Prop :=
  (st.registry.map Prod.snd).Nodup ∧ ∀ p ∈ st.registry, p.2 < st.symbols.length

instance (st : VMState) : Decidable (WFRegistry st) := by
  unfold WFRegistry
  infer_instance

/-!
## Theorems

General lemmas about the association-list operations first, then one
theorem (plus witness or counterexample where required) per claim.
-/

/-- A successful key lookup yields a reference occurring in the list. -/
theorem boundLookup_mem_snd : ∀ (l : List (String × Nat)) (k : String) (r : Nat),
    boundLookup l k = some r → r ∈ l.map Prod.snd := by
  intro l k r h
  induction l with
  | nil => simp [boundLookup] at h
  | cons p rest ih =>
      obtain ⟨pk, pv⟩ := p
      by_cases e : pk = k
      · subst e
        simp [boundLookup] at h
        simp [h]
      · simp [boundLookup, e] at h
        simp [ih h]

/-- With pairwise distinct references, looking a reference back up
recovers the key it was interned under. -/
theorem boundLookup_nodup_findKeyByRef :
    ∀ (l : List (String × Nat)) (k : String) (r : Nat),
    boundLookup l k = some r → (l.map Prod.snd).Nodup → findKeyByRef l r = some k := by
  intro l k r h hn
  induction l with
  | nil => simp [boundLookup] at h
  | cons p rest ih =>
      obtain ⟨pk, pv⟩ := p
      simp only [List.map_cons, List.nodup_cons] at hn
      by_cases e : pk = k
      · subst e
        have hv : pv = r := by simpa [boundLookup] using h
        subst hv
        simp [findKeyByRef]
      · have h' : boundLookup rest k = some r := by simpa [boundLookup, e] using h
        have hr : r ∈ rest.map Prod.snd := boundLookup_mem_snd rest k r h'
        have hne : pv ≠ r := fun contra => hn.1 (contra ▸ hr)
        simp [findKeyByRef, hne, ih h' hn.2]

/-- A reference one past every registered reference is found exactly at a
freshly appended entry. -/
theorem findKeyByRef_append_fresh :
    ∀ (l : List (String × Nat)) (k : String) (L : Nat),
    (∀ p ∈ l, p.2 < L) → findKeyByRef (l ++ [(k, L)]) L = some k := by
  intro l k L hb
  induction l with
  | nil => simp [findKeyByRef]
  | cons p rest ih =>
      obtain ⟨pk, pv⟩ := p
      have hlt : pv < L := hb (pk, pv) (by simp)
      have hne : pv ≠ L := Nat.ne_of_lt hlt
      simp only [List.cons_append, findKeyByRef, hne, if_false]
      exact ih (fun q hq => hb q (by simp [hq]))

/-- Lookup distributes over append when the first part misses. -/
theorem boundLookup_append_none :
    ∀ (l l2 : List (String × Nat)) (k : String),
    boundLookup l k = none → boundLookup (l ++ l2) k = boundLookup l2 k := by
  intro l l2 k h
  induction l with
  | nil => simp
  | cons p rest ih =>
      obtain ⟨pk, pv⟩ := p
      by_cases e : pk = k
      · simp [boundLookup, e] at h
      · simp only [boundLookup, e, if_false] at h
        simpa [boundLookup, e] using ih h

/-- C3: identifier resolution searches the scope levels innermost to
outermost; at a Function level the parameter map is checked before the
locals map and the search stops there; a name found with an assigned
offset returns that offset; a name found registered but unresolved is
lazily assigned a fresh offset which is returned (and recorded); a name
found in no enclosing scope resolves to nothing and the identifier node
stays name-based. -/
theorem use_variable_resolution_order :
    (∀ (idg : IdGen) (params varmap : VarMap) (rest : List Level) (name : String) (v : Nat),
      params.get name = some (some v) →
      useVarGo idg name (Level.Function params varmap :: rest) =
        (some v, idg, Level.Function params varmap :: rest)) ∧
    (∀ (idg : IdGen) (params varmap : VarMap) (rest : List Level) (name : String),
      params.get name = some none →
      useVarGo idg name (Level.Function params varmap :: rest) =
        (some idg.id, ⟨idg.id + 1, idg.saved_id⟩,
         Level.Function (params.insert name (some idg.id)) varmap :: rest)) ∧
    (∀ (idg : IdGen) (params varmap : VarMap) (rest : List Level) (name : String) (v : Nat),
      params.get name = none → varmap.get name = some (some v) →
      useVarGo idg name (Level.Function params varmap :: rest) =
        (some v, idg, Level.Function params varmap :: rest)) ∧
    (∀ (idg : IdGen) (params varmap : VarMap) (rest : List Level) (name : String),
      params.get name = none → varmap.get name = some none →
      useVarGo idg name (Level.Function params varmap :: rest) =
        (some idg.id, ⟨idg.id + 1, idg.saved_id⟩,
         Level.Function params (varmap.insert name (some idg.id)) :: rest)) ∧
    (∀ (idg : IdGen) (varmap : VarMap) (rest : List Level) (name : String) (v : Nat),
      varmap.get name = some (some v) →
      useVarGo idg name (Level.Block varmap :: rest) =
        (some v, idg, Level.Block varmap :: rest)) ∧
    (∀ (idg : IdGen) (varmap : VarMap) (rest : List Level) (name : String),
      varmap.get name = some none →
      useVarGo idg name (Level.Block varmap :: rest) =
        (some idg.id, ⟨idg.id + 1, idg.saved_id⟩,
         Level.Block (varmap.insert name (some idg.id)) :: rest)) ∧
    (∀ (idg : IdGen) (varmap : VarMap) (rest : List Level) (name : String),
      varmap.get name = none →
      useVarGo idg name (Level.Block varmap :: rest) =
        ((useVarGo idg name rest).1, (useVarGo idg name rest).2.1,
         Level.Block varmap :: (useVarGo idg name rest).2.2)) ∧
    (∀ (a : Analyzer) (s : String),
      (a.use_variable s).1 = none →
      visit a (.Identifier (.Name s)) = ((a.use_variable s).2, .Identifier (.Name s))) := by
  refine ⟨?_, ?_, ?_, ?_, ?_, ?_, ?_, ?_⟩
  · intro idg params varmap rest name v h
    simp [useVarGo, h]
  · intro idg params varmap rest name h
    simp [useVarGo, h, IdGen.gen_id]
  · intro idg params varmap rest name v h1 h2
    simp [useVarGo, h1, h2]
  · intro idg params varmap rest name h1 h2
    simp [useVarGo, h1, h2, IdGen.gen_id]
  · intro idg varmap rest name v h
    simp [useVarGo, h]
  · intro idg varmap rest name h
    simp [useVarGo, h, IdGen.gen_id]
  · intro idg varmap rest name h
    simp [useVarGo, h]
  · intro a s h
    have unf : visit a (.Identifier (.Name s)) =
        ((a.use_variable s).2, .Identifier (match (a.use_variable s).1 with
          | some off => IdentifierInfo.Offset off
          | none => IdentifierInfo.Name s)) := rfl
    rw [unf, h]

/-- Witness for C3 at concrete inputs: a resolved parameter shadowing a
local, a lazily resolved block variable, a block level falling through
to an outer level, and a free identifier staying name-based. -/
theorem use_variable_resolution_order_witness :
    useVarGo IdGen.new "p" [Level.Function [("p", some 3)] [("p", some 9)]] =
      (some 3, IdGen.new, [Level.Function [("p", some 3)] [("p", some 9)]]) ∧
    useVarGo IdGen.new "u" [Level.Block [("u", none)]] =
      (some IdGen.new.id, ⟨IdGen.new.id + 1, IdGen.new.saved_id⟩,
       [Level.Block (VarMap.insert [("u", none)] "u" (some IdGen.new.id))]) ∧
    useVarGo IdGen.new "w" [Level.Block [], Level.Function [] [("w", some 4)]] =
      ((useVarGo IdGen.new "w" [Level.Function [] [("w", some 4)]]).1,
       (useVarGo IdGen.new "w" [Level.Function [] [("w", some 4)]]).2.1,
       Level.Block [] :: (useVarGo IdGen.new "w" [Level.Function [] [("w", some 4)]]).2.2) ∧
    visit ⟨[Level.Function [] []], IdGen.new⟩ (.Identifier (.Name "z")) =
      ((Analyzer.use_variable ⟨[Level.Function [] []], IdGen.new⟩ "z").2,
       .Identifier (.Name "z")) :=
  ⟨use_variable_resolution_order.1 IdGen.new [("p", some 3)] [("p", some 9)] [] "p" 3 rfl,
   use_variable_resolution_order.2.2.2.2.2.1 IdGen.new [("u", none)] [] "u" rfl,
   use_variable_resolution_order.2.2.2.2.2.2.1 IdGen.new []
     [Level.Function [] [("w", some 4)]] "w" rfl,
   use_variable_resolution_order.2.2.2.2.2.2.2 ⟨[Level.Function [] []], IdGen.new⟩ "z" rfl⟩

/-- C10: resolution never crosses a function boundary — the walk over the
level stack stops at the innermost Function level and returns none when
its parameter and locals maps both lack the name, whatever the outer
levels hold; the id generator is untouched, so no offset is ever
assigned from an outer offset space, and the identifier node stays
name-based. -/
theorem use_variable_stops_at_function_level :
    (∀ (idg : IdGen) (params varmap : VarMap) (rest : List Level) (name : String),
      params.get name = none → varmap.get name = none →
      useVarGo idg name (Level.Function params varmap :: rest) =
        (none, idg, Level.Function params varmap :: rest)) ∧
    (∀ (lev : List Level) (idg : IdGen) (params varmap : VarMap)
       (rest : List Level) (s : String),
      lev = Level.Function params varmap :: rest →
      params.get s = none → varmap.get s = none →
      visit ⟨lev, idg⟩ (.Identifier (.Name s)) = (⟨lev, idg⟩, .Identifier (.Name s))) := by
  have part1 : ∀ (idg : IdGen) (params varmap : VarMap) (rest : List Level) (name : String),
      params.get name = none → varmap.get name = none →
      useVarGo idg name (Level.Function params varmap :: rest) =
        (none, idg, Level.Function params varmap :: rest) := by
    intro idg params varmap rest name h1 h2
    simp [useVarGo, h1, h2]
  refine ⟨part1, ?_⟩
  intro lev idg params varmap rest s hl h1 h2
  subst hl
  have hu : Analyzer.use_variable ⟨Level.Function params varmap :: rest, idg⟩ s =
      (none, ⟨Level.Function params varmap :: rest, idg⟩) := by
    simp [Analyzer.use_variable, part1 idg params varmap rest s h1 h2]
  have unf : visit ⟨Level.Function params varmap :: rest, idg⟩ (.Identifier (.Name s)) =
      ((Analyzer.use_variable ⟨Level.Function params varmap :: rest, idg⟩ s).2,
       .Identifier (match (Analyzer.use_variable
           ⟨Level.Function params varmap :: rest, idg⟩ s).1 with
         | some off => IdentifierInfo.Offset off
         | none => IdentifierInfo.Name s)) := rfl
  rw [unf, hu]

/-- Witness for C10: an identifier inside a nested (inner) function whose
name is declared and even resolved in the lexically enclosing outer
function level stays unresolved and keeps the id generator untouched. -/
theorem use_variable_stops_at_function_level_witness :
    useVarGo IdGen.new "y" [Level.Function [] [], Level.Function [] [("y", some 0)]] =
      (none, IdGen.new, [Level.Function [] [], Level.Function [] [("y", some 0)]]) ∧
    visit ⟨[Level.Function [] [], Level.Function [] [("y", some 0)]], IdGen.new⟩
        (.Identifier (.Name "y")) =
      (⟨[Level.Function [] [], Level.Function [] [("y", some 0)]], IdGen.new⟩,
       .Identifier (.Name "y")) :=
  ⟨use_variable_stops_at_function_level.1 IdGen.new [] []
     [Level.Function [] [("y", some 0)]] "y" rfl rfl,
   use_variable_stops_at_function_level.2
     [Level.Function [] [], Level.Function [] [("y", some 0)]] IdGen.new [] []
     [Level.Function [] [("y", some 0)]] "y" rfl rfl rfl⟩

/-- Counterexample to C1: in `function f() { x; { var x = 1; x } }`, the
`var x` declared inside the nested block is registered in the BLOCK
level, not hoisted to the function level.  The reference to `x` before
the block (textually before the declaration, outside the block) stays
name-based, while the block-internal reference resolves to offset 0 and
the declaration rewrites to an assignment to offset 0 — so not every
reference to `x` in the function resolves to one function-scope offset,
contradicting the claim. -/
theorem block_var_not_hoisted_to_function_counterexample :
    analyze Analyzer.new (.StatementList [ .FunctionDecl "f" []
      (.StatementList [
        .StatementList [ .Identifier (.Name "x") ],
        .Block [ .StatementList [
          .VarDecl "x" (some (.Number 1)) .Var,
          .Identifier (.Name "x") ] ] ]) 0 ]) =
    some (Analyzer.new, .StatementList [ .FunctionDecl "f" []
      (.StatementList [
        .StatementList [ .Identifier (.Name "x") ],
        .Block [ .StatementList [
          .Assign (.Identifier (.Offset 0)) (.Number 1),
          .Identifier (.Offset 0) ] ] ]) 0 ]) := rfl

/-- C1 (amended): a `var x` declared inside a nested block is registered
in the scope level of that block and is confined to it: every reference to
`x` inside the block — including references textually before the
declaration — resolves to one and the same block-level offset, and the
declaration-with-initializer rewrites to an assignment to that offset,
while a reference to `x` elsewhere in the function, outside the block,
stays name-based. -/
theorem block_var_confined_to_block (x : String) (n : Int) :
    analyze Analyzer.new (.StatementList [ .FunctionDecl "f" []
      (.StatementList [
        .StatementList [ .Identifier (.Name x) ],
        .Block [ .StatementList [
          .Identifier (.Name x),
          .VarDecl x (some (.Number n)) .Var,
          .Identifier (.Name x) ] ] ]) 0 ]) =
    some (Analyzer.new, .StatementList [ .FunctionDecl "f" []
      (.StatementList [
        .StatementList [ .Identifier (.Name x) ],
        .Block [ .StatementList [
          .Identifier (.Offset 0),
          .Assign (.Identifier (.Offset 0)) (.Number n),
          .Identifier (.Offset 0) ] ] ]) 0 ]) := by
  simp [analyze, visit, visitList, collectList, Analyzer.collect_variable_declarations,
    collectGo, Analyzer.set_current_varmap, Analyzer.get_current_varmap, Level.get_varmap,
    VarMap.insert, VarMap.get, VarMap.empty, Analyzer.new, resolvedBindings,
    replace_variable_declarations, replaceOne, boundLookup, useVarGo,
    Analyzer.use_variable, IdGen.gen_id, IdGen.new, IdGen.save, IdGen.restore,
    IdGen.get_cur_id, Analyzer.push_new_block_level, Analyzer.push_new_function_level,
    Analyzer.pop_level, Level.as_function_level, paramsVarmap, bindParams,
    IdentifierInfo.get_name]

/-- C2: evaluation at the failing input.  For the program
`function f() { var a = 1; a }` (one resolved binding inside `f`,
declared at the top level where no outer offset has been generated), the
analyzer saves the id generator, visits the body — the body output shows
the single resolved binding at offset 0 — restores the generator, and
only THEN reads `get_cur_id` for the annotation, so the field
`bound_variables` of the node is 0, the enclosing-scope counter, not 1, the count of
resolved bindings of the function itself that the claim states.  (The
input carries annotation 7 to show the analyzer overwrites it.) -/
theorem function_annotated_with_outer_counter :
    analyze Analyzer.new (.StatementList [ .FunctionDecl "f" []
      (.StatementList [ .StatementList [
        .VarDecl "a" (some (.Number 1)) .Var,
        .Identifier (.Name "a") ] ]) 7 ]) =
    some (Analyzer.new, .StatementList [ .FunctionDecl "f" []
      (.StatementList [ .StatementList [
        .Assign (.Identifier (.Offset 0)) (.Number 1),
        .Identifier (.Offset 0) ] ]) 0 ]) := rfl

/-- Counterexample to C8: a function whose top-level scope holds two
`var x` declarations sitting in two different nested statement lists.
The collection pass of the second statement list re-inserts `x` as
unresolved AFTER the first use already received offset 0, so a second
offset (1) is allocated: two offsets for one name in one scope, the
first use resolving to offset 0 while both declarations rewrite to
offset 1, and the final id counter is 2 — refuting both "exactly one
offset" and "registering the name again does not reset an assigned
offset". -/
theorem var_redeclaration_resets_offset_counterexample :
    analyze Analyzer.new (.StatementList [ .StatementList [
      .StatementList [ .VarDecl "x" (some (.Number 1)) .Var,
                       .Identifier (.Name "x") ],
      .StatementList [ .StatementList [
        .VarDecl "x" (some (.Number 5)) .Var,
        .Identifier (.Name "x") ] ] ] ]) =
    some (⟨[.Function [] [("x", some 1)]], ⟨2, []⟩⟩,
      .StatementList [ .StatementList [
        .StatementList [ .Assign (.Identifier (.Offset 1)) (.Number 1),
                         .Identifier (.Offset 0) ],
        .StatementList [ .StatementList [
          .Assign (.Identifier (.Offset 1)) (.Number 5),
          .Identifier (.Offset 1) ] ] ] ]) := rfl

/-- C8 (amended): two `var x` declarations of the same name that are
pre-registered together — immediate children of the same statement
list — allocate exactly one offset (the final id counter is 1), and both
declarations-with-initializer are rewritten to assignments to that
single offset; but re-registration is not idempotent in general: a later
collection pass over another nested statement list re-inserts the name
as unresolved and resets an already assigned offset (see the
counterexample). -/
theorem var_redeclaration_same_list_single_offset (x : String) :
    analyze Analyzer.new (.StatementList [ .StatementList [
      .StatementList [ .VarDecl x (some (.Number 1)) .Var,
                       .VarDecl x (some (.Number 2)) .Var,
                       .Identifier (.Name x) ] ] ]) =
    some (⟨[.Function [] [(x, some 0)]], ⟨1, []⟩⟩,
      .StatementList [ .StatementList [
        .StatementList [ .Assign (.Identifier (.Offset 0)) (.Number 1),
                         .Assign (.Identifier (.Offset 0)) (.Number 2),
                         .Identifier (.Offset 0) ] ] ]) := by
  simp [analyze, visit, visitList, collectList, Analyzer.collect_variable_declarations,
    collectGo, Analyzer.set_current_varmap, Analyzer.get_current_varmap, Level.get_varmap,
    VarMap.insert, VarMap.get, VarMap.empty, Analyzer.new, resolvedBindings,
    replace_variable_declarations, replaceOne, boundLookup, useVarGo,
    Analyzer.use_variable, IdGen.gen_id, IdGen.new, IdentifierInfo.get_name]

/-- Counterexample to C4: with a non-array receiver, `push` and `map` do
raise an error through the current frame and leave the state untouched,
but the error raised is `Frame::error_unknown()`, the Unknown kind, not
a type error as the claim states. -/
theorem push_map_nonarray_error_not_type_error_counterexample :
    array_prototype_push st123 [] (.Number 1) = .err .Unknown st123 ∧
    array_prototype_map [] st123 [] (.Number 1) = .err .Unknown st123 ∧
    (array_prototype_push st123 [] (.Number 1)).raised_type_error = false ∧
    (array_prototype_map [] st123 [] (.Number 1)).raised_type_error = false := by
  refine ⟨rfl, rfl, rfl, rfl⟩

/-- C4 (amended): whenever `array_prototype_push` or `array_prototype_map`
is invoked with a non-array `this` receiver, an unknown-kind runtime
error (not a type error) is raised through the current frame and
propagated to the caller, and the call performs no heap mutation: the
receiver check happens before any element write or allocation, so on
rejection the whole VM state — heap, registry and operand stack — is
exactly as before the call. -/
theorem push_map_nonarray_rejected_without_mutation (tbl : NativeTable)
    (st : VMState) (args : List Value) (this : Value)
    (h : this.is_array_object = false) :
    array_prototype_push st args this = .err .Unknown st ∧
    array_prototype_map tbl st args this = .err .Unknown st := by
  cases this <;>
    simp_all [Value.is_array_object, array_prototype_push, array_prototype_map]

/-- Witness for C4 (amended) at a number receiver. -/
theorem push_map_nonarray_rejected_without_mutation_witness :
    (Value.Number 1).is_array_object = false ∧
    (array_prototype_push st123 [.Number 7] (.Number 1) = .err .Unknown st123 ∧
     array_prototype_map dblTable st123 [.Function 0] (.Number 1) = .err .Unknown st123) :=
  ⟨rfl, push_map_nonarray_rejected_without_mutation dblTable st123 [.Number 7]
    (.Number 1) rfl⟩

/-- C5: `array_prototype_push` on an array of length n with the single
argument v produces — as one pure step, with no observable intermediate
state — the state where the element vector of that array is the old vector
with v appended (so its synthesized length is n + 1 and index n reads
v), and exactly one value, the new length as a Number, is pushed onto
the operand stack as the result of the call. -/
theorem push_appends_and_returns_length (st : VMState) (ref : Nat)
    (info : ArrayObjectInfo) (v : Value)
    (h : st.arrays.get? ref = some info) :
    array_prototype_push st [v] (.Array ref) =
      .ok { st with
            arrays := st.arrays.set ref ⟨info.elems ++ [Property.new_data_simple v]⟩,
            stack := .Number (Int.ofNat (info.elems.length + 1)) :: st.stack } ∧
    (ArrayObjectInfo.mk (info.elems ++ [Property.new_data_simple v])).get_length =
      info.get_length + 1 ∧
    (info.elems ++ [Property.new_data_simple v]).get? info.elems.length =
      some (Property.new_data_simple v) := by
  have h2 : st.arrays[ref]? = some info := by simpa [List.get?_eq_getElem?] using h
  refine ⟨?_, ?_, ?_⟩
  · simp [array_prototype_push, h2]
  · simp [ArrayObjectInfo.get_length]
  · simp [List.get?_eq_getElem?, List.getElem?_concat_length]

/-- Witness for C5: pushing 7 onto the length-3 array `[1, 2, 3]`. -/
theorem push_appends_and_returns_length_witness :
    st123.arrays.get? 0 = some ⟨[numProp 1, numProp 2, numProp 3]⟩ ∧
    (array_prototype_push st123 [.Number 7] (.Array 0) =
      .ok { st123 with
            arrays := st123.arrays.set 0
              ⟨[numProp 1, numProp 2, numProp 3] ++ [Property.new_data_simple (.Number 7)]⟩,
            stack := .Number (Int.ofNat ([numProp 1, numProp 2, numProp 3].length + 1))
              :: st123.stack } ∧
     (ArrayObjectInfo.mk ([numProp 1, numProp 2, numProp 3] ++
        [Property.new_data_simple (.Number 7)])).get_length =
       (ArrayObjectInfo.mk [numProp 1, numProp 2, numProp 3]).get_length + 1 ∧
     ([numProp 1, numProp 2, numProp 3] ++
        [Property.new_data_simple (.Number 7)]).get?
          [numProp 1, numProp 2, numProp 3].length =
       some (Property.new_data_simple (.Number 7))) :=
  ⟨rfl, push_appends_and_returns_length st123 0
    ⟨[numProp 1, numProp 2, numProp 3]⟩ (.Number 7) rfl⟩

/-- C6: mapping the array `[1, 2, 3]` (heap reference 0) through the
doubling callback (a callable dispatched through the uniform
`call_function` convention) allocates a NEW array at the fresh heap
reference 1 holding `[2, 4, 6]`, built from the callback results in
index order, leaves that reference as the sole result on the operand
stack, and the source array at reference 0 still holds `[1, 2, 3]`
unchanged. -/
theorem map_doubling_yields_new_array :
    array_prototype_map dblTable st123 [.Function 0] (.Array 0) =
      .ok ⟨[⟨[numProp 1, numProp 2, numProp 3]⟩, ⟨[numProp 2, numProp 4, numProp 6]⟩],
           [], [], [.Array 1]⟩ := rfl

/-- C9: evaluation at the failing input.  `symbol_key_for` with a missing
argument does raise a structured type error through the current frame,
but `array_prototype_map` invoked on an array receiver with an empty
argument list hits the out-of-bounds slice index `args[0]` — a Rust
panic, an abnormal termination of the VM rather than a structured
exception raised through the frame, contradicting the claim. -/
theorem map_missing_argument_aborts :
    array_prototype_map [] st123 [] (.Array 0) = .abort ∧
    symbol_key_for st123 [] = .err (.Type "undefined is not symbol") st123 :=
  ⟨rfl, rfl⟩

/-- C7: the global symbol registry is an interning map from key to symbol
reference, empty at startup and append-only.  `symbol_for` on a string
key pushes the interned symbol onto the operand stack; applying
`symbol_key_for` to that symbol (in any state whose registry is
well-formed, as every reachable state is) pushes the key back as a
string; a second `symbol_for` with the same key returns the identical
symbol reference and leaves the state unchanged; and one interning step
either leaves the registry unchanged (hit) or appends exactly the new
pair (miss). -/
theorem symbol_registry_interning :
    VMState.startup.registry = [] ∧
    (∀ (st : VMState) (k : String),
      symbol_for st [.Str k] =
        .ok { (registryFor st k).2 with stack := (registryFor st k).1 :: st.stack }) ∧
    (∀ (st : VMState) (k : String), WFRegistry st →
      symbol_key_for ((registryFor st k).2) [(registryFor st k).1] =
        .ok { (registryFor st k).2 with
              stack := .Str k :: ((registryFor st k).2).stack }) ∧
    (∀ (st : VMState) (k : String),
      registryFor ((registryFor st k).2) k = registryFor st k) ∧
    (∀ (st : VMState) (k : String),
      ((registryFor st k).2).registry = st.registry ∨
      ((registryFor st k).2).registry = st.registry ++ [(k, st.symbols.length)]) := by
  refine ⟨rfl, ?_, ?_, ?_, ?_⟩
  · intro st k
    cases e : boundLookup st.registry k with
    | some ref => simp [symbol_for, Value.to_string, registryFor, e]
    | none => simp [symbol_for, Value.to_string, registryFor, e, factorySymbol]
  · intro st k hwf
    cases e : boundLookup st.registry k with
    | some ref =>
        have hk : findKeyByRef st.registry ref = some k :=
          boundLookup_nodup_findKeyByRef st.registry k ref e hwf.1
        simp [registryFor, e, symbol_key_for, Value.is_symbol, registryKeyFor, hk]
    | none =>
        have hk : findKeyByRef (st.registry ++ [(k, st.symbols.length)])
            st.symbols.length = some k :=
          findKeyByRef_append_fresh st.registry k st.symbols.length hwf.2
        simp [registryFor, e, factorySymbol, symbol_key_for, Value.is_symbol,
          registryKeyFor, hk]
  · intro st k
    cases e : boundLookup st.registry k with
    | some ref => simp [registryFor, e]
    | none =>
        have e2 : boundLookup (st.registry ++ [(k, st.symbols.length)]) k =
            some st.symbols.length := by
          rw [boundLookup_append_none st.registry _ k e]
          simp [boundLookup]
        simp [registryFor, e, factorySymbol, e2]
  · intro st k
    cases e : boundLookup st.registry k with
    | some ref => exact Or.inl (by simp [registryFor, e])
    | none => exact Or.inr (by simp [registryFor, e, factorySymbol])

/-- Witness for C7: the keyFor-of-for roundtrip on the key "k" starting
from the (well-formed) startup state. -/
theorem symbol_registry_interning_witness :
    WFRegistry VMState.startup ∧
    symbol_key_for ((registryFor VMState.startup "k").2)
        [(registryFor VMState.startup "k").1] =
      .ok { (registryFor VMState.startup "k").2 with
            stack := .Str "k" :: ((registryFor VMState.startup "k").2).stack } :=
  ⟨by decide, symbol_registry_interning.2.2.1 VMState.startup "k" (by decide)⟩

end Rapidus
